import Mathlib

set_option maxRecDepth 1000000
set_option maxHeartbeats 2000000

/-
Verification development for the NEAR randomness-example contract
(src/contract/src/lib.rs). The contract keeps a registry of counters with
owners; a 32-byte entropy seed is evolved by SHA-256 reseeding before every
mutating call, and a ChaCha20 stream derived from the fresh seed supplies
counter identifiers, initial values and increment/decrement amounts.

Bytes are modelled as natural numbers below 256, 32-bit words as natural
numbers below 2^32, and i32 values as integers in [-2^31, 2^31).
-/

namespace Randomness

/-! ### 32-bit word helpers -/

/-- Rotate a 32-bit word right by n bits. -/
def rotr32 (n x : Nat) : Nat := ((x >>> n) ||| (x <<< (32 - n))) % 2 ^ 32

/-- Rotate a 32-bit word left by n bits. -/
def rotl32 (n x : Nat) : Nat := ((x <<< n) ||| (x >>> (32 - n))) % 2 ^ 32

/-- Big-endian bytes of a u64, as produced by Rust u64::to_be_bytes. -/
def u64be (n : Nat) : List Nat :=
  [n / 2 ^ 56 % 256, n / 2 ^ 48 % 256, n / 2 ^ 40 % 256, n / 2 ^ 32 % 256,
   n / 2 ^ 24 % 256, n / 2 ^ 16 % 256, n / 2 ^ 8 % 256, n % 256]

/-- Group a byte list into 32-bit words, big-endian (SHA-256 message words). -/
def wordsBEofBytes : List Nat → List Nat
  | b0 :: b1 :: b2 :: b3 :: rest =>
      (b0 * 2 ^ 24 + b1 * 2 ^ 16 + b2 * 2 ^ 8 + b3) :: wordsBEofBytes rest
  | _ => []

/-- Group a byte list into 32-bit words, little-endian (ChaCha20 key words). -/
def wordsLEofBytes : List Nat → List Nat
  | b0 :: b1 :: b2 :: b3 :: rest =>
      (b0 + b1 * 2 ^ 8 + b2 * 2 ^ 16 + b3 * 2 ^ 24) :: wordsLEofBytes rest
  | _ => []

/-- Serialize 32-bit words to bytes, big-endian (SHA-256 digest bytes). -/
def bytesBEofWords (ws : List Nat) : List Nat :=
  ws.foldr (fun w acc =>
    w / 2 ^ 24 % 256 :: w / 2 ^ 16 % 256 :: w / 2 ^ 8 % 256 :: w % 256 :: acc) []

/-! ### SHA-256 (the NEAR host function env::sha256) -/

/-- SHA-256 round constants (FIPS 180-4, written in decimal). -/
def K256 : List Nat :=
  [1116352408, 1899447441, 3049323471, 3921009573, 961987163, 1508970993,
   2453635748, 2870763221, 3624381080, 310598401, 607225278, 1426881987,
   1925078388, 2162078206, 2614888103, 3248222580, 3835390401, 4022224774,
   264347078, 604807628, 770255983, 1249150122, 1555081692, 1996064986,
   2554220882, 2821834349, 2952996808, 3210313671, 3336571891, 3584528711,
   113926993, 338241895, 666307205, 773529912, 1294757372, 1396182291,
   1695183700, 1986661051, 2177026350, 2456956037, 2730485921, 2820302411,
   3259730800, 3345764771, 3516065817, 3600352804, 4094571909, 275423344,
   430227734, 506948616, 659060556, 883997877, 958139571, 1322822218,
   1537002063, 1747873779, 1955562222, 2024104815, 2227730452, 2361852424,
   2428436474, 2756734187, 3204031479, 3329325298]

/-- SHA-256 initial hash value (FIPS 180-4, written in decimal). -/
def H256init : List Nat :=
  [1779033703, 3144134277, 1013904242, 2773480762,
   1359893119, 2600822924, 528734635, 1541459225]

def shaCh (x y z : Nat) : Nat := (x &&& y) ^^^ ((x ^^^ 0xffffffff) &&& z)

def shaMaj (x y z : Nat) : Nat := (x &&& y) ^^^ (x &&& z) ^^^ (y &&& z)

def bigSigma0 (x : Nat) : Nat := rotr32 2 x ^^^ rotr32 13 x ^^^ rotr32 22 x

def bigSigma1 (x : Nat) : Nat := rotr32 6 x ^^^ rotr32 11 x ^^^ rotr32 25 x

def smallSigma0 (x : Nat) : Nat := rotr32 7 x ^^^ rotr32 18 x ^^^ (x >>> 3)

def smallSigma1 (x : Nat) : Nat := rotr32 17 x ^^^ rotr32 19 x ^^^ (x >>> 10)

/-- Extend a 16-word message block to the 64-word message schedule,
running the extension step n more times. -/
def schedExt : Nat → List Nat → List Nat
  | 0, ws => ws
  | n + 1, ws =>
      let t := ws.length
      let w := (smallSigma1 (ws.getD (t - 2) 0) + ws.getD (t - 7) 0 +
                smallSigma0 (ws.getD (t - 15) 0) + ws.getD (t - 16) 0) % 2 ^ 32
      schedExt n (ws ++ [w])

/-- The eight SHA-256 working variables. -/
structure Sha8 where
  a : Nat
  b : Nat
  c : Nat
  d : Nat
  e : Nat
  f : Nat
  g : Nat
  h : Nat

/-- One SHA-256 compression round; kw pairs the round constant with the
schedule word. -/
def compressStep (st : Sha8) (kw : Nat × Nat) : Sha8 :=
  let t1 := (st.h + bigSigma1 st.e + shaCh st.e st.f st.g + kw.1 + kw.2) % 2 ^ 32
  let t2 := (bigSigma0 st.a + shaMaj st.a st.b st.c) % 2 ^ 32
  ⟨(t1 + t2) % 2 ^ 32, st.a, st.b, st.c, (st.d + t1) % 2 ^ 32, st.e, st.f, st.g⟩

/-- Compress one 16-word block into the running hash value. -/
def compressBlock (hs block : List Nat) : List Nat :=
  let ws := schedExt 48 block
  let st0 : Sha8 := ⟨hs.getD 0 0, hs.getD 1 0, hs.getD 2 0, hs.getD 3 0,
                     hs.getD 4 0, hs.getD 5 0, hs.getD 6 0, hs.getD 7 0⟩
  let st := (K256.zip ws).foldl compressStep st0
  [(hs.getD 0 0 + st.a) % 2 ^ 32, (hs.getD 1 0 + st.b) % 2 ^ 32,
   (hs.getD 2 0 + st.c) % 2 ^ 32, (hs.getD 3 0 + st.d) % 2 ^ 32,
   (hs.getD 4 0 + st.e) % 2 ^ 32, (hs.getD 5 0 + st.f) % 2 ^ 32,
   (hs.getD 6 0 + st.g) % 2 ^ 32, (hs.getD 7 0 + st.h) % 2 ^ 32]

/-- SHA-256 padding: append 0x80, zeros, and the 64-bit big-endian bit length,
reaching a multiple of 64 bytes. -/
def sha256pad (m : List Nat) : List Nat :=
  m ++ [128] ++ List.replicate ((119 - m.length % 64) % 64) 0 ++ u64be (8 * m.length)

/-- SHA-256 of a byte list, returning the 32 digest bytes. -/
def sha256 (m : List Nat) : List Nat :=
  let p := sha256pad m
  bytesBEofWords ((List.range (p.length / 64)).foldl
    (fun hs i => compressBlock hs (wordsBEofBytes ((p.drop (64 * i)).take 64))) H256init)

/-! ### ChaCha20 (the rand_chacha ChaCha20Rng keystream)

ChaCha20Rng::from_seed keys the original djb ChaCha20 variant with the seed,
a zero 64-bit nonce and a 64-bit block counter starting at zero. The
keystream bytes are the block words serialized little-endian. -/

/-- ChaCha quarter round acting on four positions of the 16-word state. -/
def qround (s : List Nat) (i1 i2 i3 i4 : Nat) : List Nat :=
  let a := s.getD i1 0
  let b := s.getD i2 0
  let c := s.getD i3 0
  let d := s.getD i4 0
  let a := (a + b) % 2 ^ 32
  let d := rotl32 16 (d ^^^ a)
  let c := (c + d) % 2 ^ 32
  let b := rotl32 12 (b ^^^ c)
  let a := (a + b) % 2 ^ 32
  let d := rotl32 8 (d ^^^ a)
  let c := (c + d) % 2 ^ 32
  let b := rotl32 7 (b ^^^ c)
  (((s.set i1 a).set i2 b).set i3 c).set i4 d

/-- One ChaCha double round: four column rounds then four diagonal rounds. -/
def doubleRound (s : List Nat) : List Nat :=
  let s := qround s 0 4 8 12
  let s := qround s 1 5 9 13
  let s := qround s 2 6 10 14
  let s := qround s 3 7 11 15
  let s := qround s 0 5 10 15
  let s := qround s 1 6 11 12
  let s := qround s 2 7 8 13
  qround s 3 4 9 14

/-- Iterate the double round n times. -/
def doubleRounds : Nat → List Nat → List Nat
  | 0, s => s
  | n + 1, s => doubleRounds n (doubleRound s)

/-- The 16 keystream words of ChaCha20 block blk under a 32-byte key,
zero nonce, 64-bit little-endian block counter. The key is matched into its
32 bytes up front, reflecting that from_seed consumes exactly a [u8; 32]. -/
def chachaBlockWords (key : List Nat) (blk : Nat) : List Nat :=
  match key with
  | [b0, b1, b2, b3, b4, b5, b6, b7, b8, b9, b10, b11, b12, b13, b14, b15,
     b16, b17, b18, b19, b20, b21, b22, b23, b24, b25, b26, b27, b28, b29, b30, b31] =>
      let init := [0x61707865, 0x3320646e, 0x79622d32, 0x6b206574] ++
        wordsLEofBytes [b0, b1, b2, b3, b4, b5, b6, b7, b8, b9, b10, b11, b12, b13, b14, b15,
          b16, b17, b18, b19, b20, b21, b22, b23, b24, b25, b26, b27, b28, b29, b30, b31] ++
        [blk % 2 ^ 32, blk / 2 ^ 32 % 2 ^ 32, 0, 0]
      List.zipWith (fun x y => (x + y) % 2 ^ 32) (doubleRounds 10 init) init
  | _ => []

/-- Word i of the ChaCha20 keystream under the given key (the i-th u32 the
rng hands out). -/
def ksWord (key : List Nat) (i : Nat) : Nat :=
  (chachaBlockWords key (i / 16)).getD (i % 16) 0

/-- Byte i of the ChaCha20 keystream (words serialized little-endian). -/
def ksByte (key : List Nat) (i : Nat) : Nat :=
  ksWord key (i / 4) / 2 ^ (8 * (i % 4)) % 256

/-- The first n keystream bytes, as consumed by rng.fill. -/
def ksBytes (key : List Nat) (n : Nat) : List Nat :=
  (List.range n).map (ksByte key)

/-! ### i32 arithmetic and hex rendering -/

/-- Reduce an integer into the i32 range, as wrapping 32-bit arithmetic does. -/
def wrap32 (z : Int) : Int := (z + 2 ^ 31) % 2 ^ 32 - 2 ^ 31

/-- Reinterpret a u32 as an i32 (rng.gen for i32 casts next_u32). -/
def toI32 (n : Nat) : Int := wrap32 n

/-- Lowercase hex digit for a value below 16. -/
def hexDigit (n : Nat) : Char :=
  if n < 10 then Char.ofNat (48 + n) else Char.ofNat (87 + n)

/-- Render bytes as lowercase hex with no separators (uuid simple format). -/
def hexOfBytes (l : List Nat) : String :=
  ⟨l.foldr (fun b acc => hexDigit (b / 16) :: hexDigit (b % 16) :: acc) []⟩

/-! ### The rand gen_range(0i32..256) draw

rand UniformInt sample_single for i32 with range 256: repeatedly draw a u32
v, widen-multiply by 256, and accept when the low half is at most
(256 <<< leading_zeros 256) - 1 = 2^31 - 1, returning the high half.
For range 256 this accepts v exactly when v % 2^24 < 2^23 and returns
v / 2^24. The rng words come from the ChaCha20 keystream in order. -/

/-- The rejection loop of gen_range(0i32..256), searching the keystream from
word i with the given fuel. The Rust loop is unbounded; fuel 64 models it,
each draw being rejected with probability 1/2. -/
def sampleLoop (key : List Nat) : Nat → Nat → Option Nat
  | _, 0 => none
  | i, fuel + 1 =>
      let v := ksWord key i
      if v % 2 ^ 24 < 2 ^ 23 then some (v / 2 ^ 24) else sampleLoop key (i + 1) fuel

/-- gen_range(0i32..256) on a fresh ChaCha20Rng keyed by key. -/
def sampleRange256 (key : List Nat) : Option Nat := sampleLoop key 0 64

/-! ### The contract state and environment -/

/-- The NEAR host inputs a call observes: env::random_seed,
env::block_index and env::predecessor_account_id. Account ids are ASCII, so
their UTF-8 bytes are their code points. -/
structure Env where
  randomSeed : List Nat
  blockIndex : Nat
  predecessor : String
deriving DecidableEq, Repr

/-- UTF-8 bytes of an ASCII account id string. -/
def asciiBytes (s : String) : List Nat := s.data.map Char.toNat

/-- Association-list model of near_sdk UnorderedMap: point lookups and
inserts keyed by the identifier string. -/
def lookupA {α : Type} : List (String × α) → String → Option α
  | [], _ => none
  | (k, v) :: rest, k' => if k = k' then some v else lookupA rest k'

/-- UnorderedMap insert: overwrite the key if present, else append. -/
def insertA {α : Type} : List (String × α) → String → α → List (String × α)
  | [], k, v => [(k, v)]
  | (k0, v0) :: rest, k, v =>
      if k0 = k then (k, v) :: rest else (k0, v0) :: insertA rest k v

/-- The Contract struct: entropy seed, counters map, owners map. -/
structure Contract where
  seed : List Nat
  counters : List (String × Int)
  owners : List (String × String)
deriving DecidableEq, Repr

/-- The errors the contract panics with. -/
inductive CError where
  | notFound
  | notOwner
deriving DecidableEq, Repr

instance {ε α : Type} [DecidableEq ε] [DecidableEq α] : DecidableEq (Except ε α) :=
  fun a b =>
    match a, b with
    | .ok x, .ok y =>
        if h : x = y then isTrue (by rw [h])
        else isFalse (fun hc => h (by cases hc; rfl))
    | .ok _, .error _ => isFalse (fun hc => Except.noConfusion hc)
    | .error _, .ok _ => isFalse (fun hc => Except.noConfusion hc)
    | .error e, .error f =>
        if h : e = f then isTrue (by rw [h])
        else isFalse (fun hc => h (by cases hc; rfl))

/-- Contract::new — seed = sha256(env::random_seed), empty maps. -/
def Contract.new (env : Env) : Contract :=
  ⟨sha256 env.randomSeed, [], []⟩

/-- _add_entropy: seed := sha256(seed ++ random_seed ++ block_index
big-endian bytes ++ predecessor account id bytes). -/
def addEntropy (env : Env) (c : Contract) : Contract :=
  ⟨sha256 (c.seed ++ env.randomSeed ++ u64be env.blockIndex ++ asciiBytes env.predecessor),
   c.counters, c.owners⟩

/-- _get_counter: lookup, panic with NotFound if absent. -/
def get_counter (c : Contract) (id : String) : Except CError Int :=
  match lookupA c.counters id with
  | some v => .ok v
  | none => .error .notFound

/-- _get_owner: lookup, panic with NotFound if absent. -/
def get_owner (c : Contract) (id : String) : Except CError String :=
  match lookupA c.owners id with
  | some o => .ok o
  | none => .error .notFound

/-- create_counter: add entropy, key a fresh ChaCha20Rng with the new seed,
fill 16 bytes for the uuid (rendered as 32 lowercase hex chars), draw a
full-range i32 (keystream word 4) for the initial value, insert into both
maps, return the id. Always succeeds. -/
def create_counter (env : Env) (c : Contract) : String × Contract :=
  (hexOfBytes (ksBytes (addEntropy env c).seed 16),
   ⟨(addEntropy env c).seed,
    insertA (addEntropy env c).counters (hexOfBytes (ksBytes (addEntropy env c).seed 16))
      (toI32 (ksWord (addEntropy env c).seed 4)),
    insertA (addEntropy env c).owners (hexOfBytes (ksBytes (addEntropy env c).seed 16))
      env.predecessor⟩)

/-- inc_counter: check owner (NotFound panic if the id has no owner,
NotOwner panic if the caller is not the owner), add entropy, lookup the
count, draw gen_range(0i32..256) from a fresh rng, store count + inc.
The result pairs the state at completion or at the panic point with the
panic, none standing for the unbounded rejection loop exceeding its fuel;
on the platform a panic reverts all state writes of the call. -/
def inc_counter (env : Env) (c : Contract) (id : String) :
    Option (Contract × Option CError) :=
  match lookupA c.owners id with
  | none => some (c, some .notFound)
  | some owner =>
    if env.predecessor = owner then
      match lookupA (addEntropy env c).counters id with
      | none => some (addEntropy env c, some .notFound)
      | some count =>
        match sampleRange256 (addEntropy env c).seed with
        | none => none
        | some d =>
            some (⟨(addEntropy env c).seed,
                   insertA (addEntropy env c).counters id (wrap32 (count + d)),
                   (addEntropy env c).owners⟩, none)
    else some (c, some .notOwner)

/-- dec_counter: as inc_counter but stores count - dec. -/
def dec_counter (env : Env) (c : Contract) (id : String) :
    Option (Contract × Option CError) :=
  match lookupA c.owners id with
  | none => some (c, some .notFound)
  | some owner =>
    if env.predecessor = owner then
      match lookupA (addEntropy env c).counters id with
      | none => some (addEntropy env c, some .notFound)
      | some count =>
        match sampleRange256 (addEntropy env c).seed with
        | none => none
        | some d =>
            some (⟨(addEntropy env c).seed,
                   insertA (addEntropy env c).counters id (wrap32 (count - d)),
                   (addEntropy env c).owners⟩, none)
    else some (c, some .notOwner)

/-! ### Call traces over the public surface -/

/-- A public call together with the host environment it observes. -/
inductive Call where
  | create (env : Env)
  | inc (env : Env) (id : String)
  | dec (env : Env) (id : String)
  | read (id : String)
  | owner (id : String)

/-- The observable output of one public call. -/
inductive Out where
  | ident (s : String)
  | value (v : Int)
  | account (a : String)
  | failed (e : CError)
  | done
  | diverged
deriving DecidableEq, Repr

/-- One public call against the persistent state. A panic reverts every
state write of the call on the platform, so a failed call keeps the prior
state. -/
def callStep (c : Contract) : Call → Contract × Out
  | .create env => ((create_counter env c).2, .ident (create_counter env c).1)
  | .inc env id =>
      match inc_counter env c id with
      | none => (c, .diverged)
      | some (_, some e) => (c, .failed e)
      | some (c', none) => (c', .done)
  | .dec env id =>
      match dec_counter env c id with
      | none => (c, .diverged)
      | some (_, some e) => (c, .failed e)
      | some (c', none) => (c', .done)
  | .read id =>
      (c, match get_counter c id with
          | .ok v => .value v
          | .error e => .failed e)
  | .owner id =>
      (c, match get_owner c id with
          | .ok o => .account o
          | .error e => .failed e)

/-- Run initialize() under initEnv and then a call sequence, collecting the
final state and all outputs. -/
def runTrace (initEnv : Env) (calls : List Call) : Contract × List Out :=
  calls.foldl (fun acc call =>
    ((callStep acc.1 call).1, acc.2 ++ [(callStep acc.1 call).2])) (Contract.new initEnv, [])

/-- States reachable from initialize() by successful public calls. Reads
leave the state untouched and a panicking call is reverted whole by the
platform, so only successful mutations transition. -/
inductive Reachable : Contract → Prop where
  | init (env : Env) : Reachable (Contract.new env)
  | create (env : Env) (c : Contract) : Reachable c → Reachable (create_counter env c).2
  | inc (env : Env) (c : Contract) (id : String) (c' : Contract) :
      Reachable c → inc_counter env c id = some (c', none) → Reachable c'
  | dec (env : Env) (c : Contract) (id : String) (c' : Contract) :
      Reachable c → dec_counter env c id = some (c', none) → Reachable c'

/-! ### Concrete fixtures

testEnv mirrors the VMContext of the repository tests: random_seed
[0, 1, 2], block_index 0, predecessor "alice.testnet". The other fixtures
are small synthetic states used to instantiate universally quantified
theorems. -/

/-- The environment of the repository tests. -/
def testEnv : Env := ⟨[0, 1, 2], 0, "alice.testnet"⟩

/-- The same environment with the caller taken literally as "alice". -/
def testEnvAliceLiteral : Env := ⟨[0, 1, 2], 0, "alice"⟩

/-- A small synthetic environment. -/
def eW : Env := ⟨[7], 3, "alice"⟩

/-- A small synthetic contract state with two records. -/
def cW : Contract :=
  ⟨List.replicate 32 0, [("x", 5), ("z", 9)], [("x", "alice"), ("z", "carol")]⟩

/-- The state after a successful inc_counter on cW. -/
def cIncW : Contract :=
  ⟨[95, 97, 164, 172, 237, 198, 169, 78, 162, 188, 117, 32, 248, 233, 173, 3,
    198, 237, 18, 35, 114, 116, 1, 44, 140, 35, 167, 33, 127, 35, 64, 200],
   [("x", 69), ("z", 9)], [("x", "alice"), ("z", "carol")]⟩

/-- The state after a successful dec_counter on cW. -/
def cDecW : Contract :=
  ⟨[95, 97, 164, 172, 237, 198, 169, 78, 162, 188, 117, 32, 248, 233, 173, 3,
    198, 237, 18, 35, 114, 116, 1, 44, 140, 35, 167, 33, 127, 35, 64, 200],
   [("x", -59), ("z", 9)], [("x", "alice"), ("z", "carol")]⟩

/-- The lowercase hex alphabet. -/
def hexChars : List Char := "0123456789abcdef".data

/-! ### Helper lemmas about the map model -/

theorem lookupA_insertA_self {α : Type} (m : List (String × α)) (k : String) (v : α) :
    lookupA (insertA m k v) k = some v := by
  induction m with
  | nil => simp [insertA, lookupA]
  | cons p rest ih =>
      obtain ⟨k0, v0⟩ := p
      by_cases h : k0 = k
      · subst h
        simp [insertA, lookupA]
      · simp [insertA, h, lookupA, ih]

theorem lookupA_insertA_ne {α : Type} (m : List (String × α)) (k y : String) (v : α)
    (h : k ≠ y) : lookupA (insertA m k v) y = lookupA m y := by
  induction m with
  | nil => simp [insertA, lookupA, h]
  | cons p rest ih =>
      obtain ⟨k0, v0⟩ := p
      by_cases h0 : k0 = k
      · subst h0
        simp [insertA, lookupA, h]
      · simp [insertA, h0, lookupA, ih]

theorem isSome_lookupA_insertA {α : Type} (m : List (String × α)) (k y : String) (v : α) :
    (lookupA (insertA m k v) y).isSome = true ↔
      (y = k ∨ (lookupA m y).isSome = true) := by
  by_cases h : k = y
  · subst h
    simp [lookupA_insertA_self]
  · rw [lookupA_insertA_ne m k y v h]
    have h' : y ≠ k := fun hy => h hy.symm
    simp [h']

/-! ### Bounds on keystream words and the gen_range draw -/

theorem getD_zipWithMod_lt (l1 l2 : List Nat) (i : Nat) :
    (List.zipWith (fun x y => (x + y) % 2 ^ 32) l1 l2).getD i 0 < 2 ^ 32 := by
  induction l1 generalizing l2 i with
  | nil => simp [List.getD]
  | cons a t ih =>
      cases l2 with
      | nil => simp [List.getD]
      | cons b t2 =>
          cases i with
          | zero => simpa using Nat.mod_lt (a + b) (by norm_num)
          | succ j => simpa [List.getD] using ih t2 j

theorem ksWord_lt (key : List Nat) (i : Nat) : ksWord key i < 2 ^ 32 := by
  unfold ksWord chachaBlockWords
  split
  · exact getD_zipWithMod_lt _ _ _
  · simp [List.getD]

theorem sampleLoop_lt (key : List Nat) (i fuel d : Nat)
    (h : sampleLoop key i fuel = some d) : d < 256 := by
  induction fuel generalizing i with
  | zero => simp [sampleLoop] at h
  | succ n ih =>
      rw [sampleLoop] at h
      split at h
      · have hv := ksWord_lt key i
        have hd : ksWord key i / 2 ^ 24 < 256 :=
          Nat.div_lt_of_lt_mul (by norm_num at hv ⊢; omega)
        simp only [Option.some.injEq] at h
        omega
      · exact ih (i + 1) h

theorem sampleRange256_lt (key : List Nat) (d : Nat)
    (h : sampleRange256 key = some d) : d < 256 :=
  sampleLoop_lt key 0 64 d h

/-! ### Hex rendering lemmas -/

theorem hexFold_length (l : List Nat) :
    (l.foldr (fun b acc => hexDigit (b / 16) :: hexDigit (b % 16) :: acc) []).length
      = 2 * l.length := by
  induction l with
  | nil => rfl
  | cons b t ih => simp [ih]; omega

theorem hexOfBytes_length (l : List Nat) : (hexOfBytes l).length = 2 * l.length := by
  simp [hexOfBytes, String.length, hexFold_length]

theorem hexDigit_mem (n : Nat) (h : n < 16) : hexDigit n ∈ hexChars := by
  interval_cases n <;> decide

theorem mem_hexFold (l : List Nat) (hb : ∀ b ∈ l, b < 256) :
    ∀ ch ∈ l.foldr (fun b acc => hexDigit (b / 16) :: hexDigit (b % 16) :: acc) [],
      ch ∈ hexChars := by
  induction l with
  | nil => simp
  | cons b t ih =>
      intro ch hch
      simp only [List.foldr, List.mem_cons] at hch
      rcases hch with h | h | h
      · subst h
        refine hexDigit_mem _ (Nat.div_lt_of_lt_mul ?_)
        have := hb b (List.mem_cons_self b t)
        omega
      · subst h
        exact hexDigit_mem _ (Nat.mod_lt b (by norm_num))
      · exact ih (fun x hx => hb x (List.mem_cons_of_mem _ hx)) ch h

theorem mem_hexOfBytes (l : List Nat) (hb : ∀ b ∈ l, b < 256) :
    ∀ ch ∈ (hexOfBytes l).data, ch ∈ hexChars := by
  simpa [hexOfBytes] using mem_hexFold l hb

theorem ksBytes_length (key : List Nat) (n : Nat) : (ksBytes key n).length = n := by
  simp [ksBytes]

theorem ksBytes_lt (key : List Nat) (n : Nat) : ∀ b ∈ ksBytes key n, b < 256 := by
  intro b hb
  simp only [ksBytes, List.mem_map, List.mem_range] at hb
  obtain ⟨i, -, rfl⟩ := hb
  exact Nat.mod_lt _ (by norm_num)

/-! ### Structural facts about addEntropy and inversion of the mutations -/

theorem addEntropy_counters (env : Env) (c : Contract) :
    (addEntropy env c).counters = c.counters := rfl

theorem addEntropy_owners (env : Env) (c : Contract) :
    (addEntropy env c).owners = c.owners := rfl

theorem inc_counter_ok (env : Env) (c : Contract) (id : String) (c' : Contract)
    (h : inc_counter env c id = some (c', none)) :
    ∃ owner count d,
      lookupA c.owners id = some owner ∧ env.predecessor = owner ∧
      lookupA c.counters id = some count ∧
      sampleRange256 (addEntropy env c).seed = some d ∧
      c' = ⟨(addEntropy env c).seed,
            insertA c.counters id (wrap32 (count + d)), c.owners⟩ := by
  unfold inc_counter at h
  cases ho : lookupA c.owners id with
  | none =>
      simp only [ho, Option.some.injEq, Prod.mk.injEq] at h
      exact Option.noConfusion h.2
  | some owner =>
      simp only [ho] at h
      by_cases hp : env.predecessor = owner
      · simp only [if_pos hp] at h
        cases hv : lookupA (addEntropy env c).counters id with
        | none =>
            simp only [hv, Option.some.injEq, Prod.mk.injEq] at h
            exact Option.noConfusion h.2
        | some count =>
            simp only [hv] at h
            cases hd : sampleRange256 (addEntropy env c).seed with
            | none =>
                simp only [hd] at h
                exact Option.noConfusion h
            | some d =>
                simp only [hd, Option.some.injEq, Prod.mk.injEq, and_true] at h
                refine ⟨owner, count, d, rfl, hp, ?_, rfl, ?_⟩
                · exact hv
                · exact h.symm
      · simp only [if_neg hp, Option.some.injEq, Prod.mk.injEq] at h
        exact Option.noConfusion h.2

theorem dec_counter_ok (env : Env) (c : Contract) (id : String) (c' : Contract)
    (h : dec_counter env c id = some (c', none)) :
    ∃ owner count d,
      lookupA c.owners id = some owner ∧ env.predecessor = owner ∧
      lookupA c.counters id = some count ∧
      sampleRange256 (addEntropy env c).seed = some d ∧
      c' = ⟨(addEntropy env c).seed,
            insertA c.counters id (wrap32 (count - d)), c.owners⟩ := by
  unfold dec_counter at h
  cases ho : lookupA c.owners id with
  | none =>
      simp only [ho, Option.some.injEq, Prod.mk.injEq] at h
      exact Option.noConfusion h.2
  | some owner =>
      simp only [ho] at h
      by_cases hp : env.predecessor = owner
      · simp only [if_pos hp] at h
        cases hv : lookupA (addEntropy env c).counters id with
        | none =>
            simp only [hv, Option.some.injEq, Prod.mk.injEq] at h
            exact Option.noConfusion h.2
        | some count =>
            simp only [hv] at h
            cases hd : sampleRange256 (addEntropy env c).seed with
            | none =>
                simp only [hd] at h
                exact Option.noConfusion h
            | some d =>
                simp only [hd, Option.some.injEq, Prod.mk.injEq, and_true] at h
                refine ⟨owner, count, d, rfl, hp, ?_, rfl, ?_⟩
                · exact hv
                · exact h.symm
      · simp only [if_neg hp, Option.some.injEq, Prod.mk.injEq] at h
        exact Option.noConfusion h.2

theorem get_counter_eq_of_lookup (c : Contract) (id : String) (v : Int)
    (h : lookupA c.counters id = some v) : get_counter c id = Except.ok v := by
  unfold get_counter
  simp only [h]

theorem get_owner_eq_of_lookup (c : Contract) (id : String) (o : String)
    (h : lookupA c.owners id = some o) : get_owner c id = Except.ok o := by
  unfold get_owner
  simp only [h]

theorem get_counter_none (c : Contract) (id : String)
    (h : lookupA c.counters id = none) :
    get_counter c id = Except.error CError.notFound := by
  unfold get_counter
  simp only [h]

theorem get_owner_none (c : Contract) (id : String)
    (h : lookupA c.owners id = none) :
    get_owner c id = Except.error CError.notFound := by
  unfold get_owner
  simp only [h]

/-- Evaluation of the synthetic successful inc_counter call. -/
theorem inc_eW_eq : inc_counter eW cW "x" = some (cIncW, none) := by decide

/-- Evaluation of the synthetic successful dec_counter call. -/
theorem dec_eW_eq : dec_counter eW cW "x" = some (cDecW, none) := by decide

/-! ### The claims -/

/-- C1: every mutating operation (create_counter, inc_counter, dec_counter)
replaces the 32-byte seed exactly once per call by
sha256(current seed ++ weak seed ++ round counter big-endian bytes ++ caller
identity bytes), the four components concatenated in exactly that order and
nothing else mixed in; for inc/dec this is stated for calls that reach the
reseed, i.e. succeed. -/
theorem reseed_formula (env : Env) (c : Contract) (id : String) :
    ((create_counter env c).2.seed
      = sha256 (c.seed ++ env.randomSeed ++ u64be env.blockIndex ++ asciiBytes env.predecessor))
    ∧ (∀ c', inc_counter env c id = some (c', none) →
        c'.seed = sha256 (c.seed ++ env.randomSeed ++ u64be env.blockIndex ++
          asciiBytes env.predecessor))
    ∧ (∀ c', dec_counter env c id = some (c', none) →
        c'.seed = sha256 (c.seed ++ env.randomSeed ++ u64be env.blockIndex ++
          asciiBytes env.predecessor)) := by
  refine ⟨rfl, ?_, ?_⟩
  · intro c' h
    obtain ⟨o, cnt, d, -, -, -, -, rfl⟩ := inc_counter_ok env c id c' h
    rfl
  · intro c' h
    obtain ⟨o, cnt, d, -, -, -, -, rfl⟩ := dec_counter_ok env c id c' h
    rfl

/-- Witness for reseed_formula: the reseed equation holds at the synthetic
create, inc and dec calls. -/
theorem reseed_formula_witness :
    ((create_counter eW cW).2.seed
      = sha256 (cW.seed ++ eW.randomSeed ++ u64be eW.blockIndex ++ asciiBytes eW.predecessor))
    ∧ cIncW.seed = sha256 (cW.seed ++ eW.randomSeed ++ u64be eW.blockIndex ++
        asciiBytes eW.predecessor)
    ∧ cDecW.seed = sha256 (cW.seed ++ eW.randomSeed ++ u64be eW.blockIndex ++
        asciiBytes eW.predecessor) :=
  ⟨(reseed_formula eW cW "x").1,
   (reseed_formula eW cW "x").2.1 cIncW inc_eW_eq,
   (reseed_formula eW cW "x").2.2 cDecW dec_eW_eq⟩

/-- C2: determinism — two runs of initialize() followed by the same call
sequence under the same environment inputs produce identical outputs and
final states. -/
theorem run_determinism (e1 e2 : Env) (cs1 cs2 : List Call)
    (he : e1 = e2) (hc : cs1 = cs2) :
    runTrace e1 cs1 = runTrace e2 cs2 := by
  subst he
  subst hc
  rfl

/-- Witness for run_determinism at a concrete environment and call list. -/
theorem run_determinism_witness :
    runTrace eW [Call.read "x"] = runTrace eW [Call.read "x"] :=
  run_determinism eW eW [Call.read "x"] [Call.read "x"] rfl rfl

/-- C3 counterexample: with the caller taken literally as the account
string "alice" (weak seed [0, 1, 2], round 0), the created identifier is
not the reference identifier of the spec scenario; the reference vectors
are generated with caller "alice.testnet". -/
theorem scenario_alice_literal_ne :
    (create_counter testEnvAliceLiteral (Contract.new testEnvAliceLiteral)).1
      ≠ "67b75d2d1be8186127d3c3284d2ce27e" := by decide

/-- C3 amended: with weak seed [0, 1, 2], round 0 and caller
"alice.testnet" (the caller of the repository tests), initialize() then
create_counter yields exactly the reference identifier, value 1484363077
and owner; a subsequent inc_counter adds exactly 173 and a dec_counter
from the post-creation state subtracts exactly 173. -/
theorem scenario_reference_vectors :
    (create_counter testEnv (Contract.new testEnv)).1 = "67b75d2d1be8186127d3c3284d2ce27e"
    ∧ get_counter (create_counter testEnv (Contract.new testEnv)).2
        "67b75d2d1be8186127d3c3284d2ce27e" = Except.ok 1484363077
    ∧ get_owner (create_counter testEnv (Contract.new testEnv)).2
        "67b75d2d1be8186127d3c3284d2ce27e" = Except.ok "alice.testnet"
    ∧ (inc_counter testEnv (create_counter testEnv (Contract.new testEnv)).2
        "67b75d2d1be8186127d3c3284d2ce27e").map
          (fun p : Contract × Option CError =>
            (get_counter p.1 "67b75d2d1be8186127d3c3284d2ce27e", p.2))
        = some (Except.ok (1484363077 + 173), none)
    ∧ (dec_counter testEnv (create_counter testEnv (Contract.new testEnv)).2
        "67b75d2d1be8186127d3c3284d2ce27e").map
          (fun p : Contract × Option CError =>
            (get_counter p.1 "67b75d2d1be8186127d3c3284d2ce27e", p.2))
        = some (Except.ok (1484363077 - 173), none) := by
  refine ⟨by decide, ?_, ?_, ?_, ?_⟩
  · exact get_counter_eq_of_lookup _ _ _ (by decide)
  · exact get_owner_eq_of_lookup _ _ _ (by decide)
  · decide
  · decide

/-- C4: a failed mutation leaves all state exactly as before the call: an
absent identifier makes inc_counter/dec_counter fail with NotFound from the
owner lookup, and a caller different from the stored owner makes them fail
with NotOwner, in both cases with the state at the panic point equal to the
input state. -/
theorem failed_mutation_preserves_state (env : Env) (c : Contract) (id : String) :
    (lookupA c.owners id = none →
      inc_counter env c id = some (c, some CError.notFound) ∧
      dec_counter env c id = some (c, some CError.notFound)) ∧
    (∀ owner, lookupA c.owners id = some owner → env.predecessor ≠ owner →
      inc_counter env c id = some (c, some CError.notOwner) ∧
      dec_counter env c id = some (c, some CError.notOwner)) := by
  constructor
  · intro h
    constructor
    · unfold inc_counter
      simp only [h]
    · unfold dec_counter
      simp only [h]
  · intro owner ho hp
    constructor
    · unfold inc_counter
      simp only [ho, if_neg hp]
    · unfold dec_counter
      simp only [ho, if_neg hp]

/-- Witness for failed_mutation_preserves_state: NotFound on an absent id
and NotOwner for a non-owner caller, both leaving the state unchanged. -/
theorem failed_mutation_preserves_state_witness :
    (inc_counter ⟨[], 0, "bob"⟩ cW "nonexistent" = some (cW, some CError.notFound) ∧
     dec_counter ⟨[], 0, "bob"⟩ cW "nonexistent" = some (cW, some CError.notFound)) ∧
    (inc_counter ⟨[], 0, "bob"⟩ cW "x" = some (cW, some CError.notOwner) ∧
     dec_counter ⟨[], 0, "bob"⟩ cW "x" = some (cW, some CError.notOwner)) :=
  ⟨(failed_mutation_preserves_state ⟨[], 0, "bob"⟩ cW "nonexistent").1 rfl,
   (failed_mutation_preserves_state ⟨[], 0, "bob"⟩ cW "x").2 "alice" rfl (by decide)⟩

/-- C5: for a successful inc_counter (resp. dec_counter) on an existing
record by its owner, the applied delta is the single gen_range draw over
[0, 256) from the stream of the freshly reseeded pool, and the new stored
value is the old value plus (resp. minus) the delta under wrapping 32-bit
signed arithmetic; the delta is a natural number, hence nonnegative. -/
theorem delta_bounded_update (env : Env) (c : Contract) (id : String) (v : Int)
    (hv : lookupA c.counters id = some v) :
    (∀ c', inc_counter env c id = some (c', none) →
      ∃ d : Nat, sampleRange256 (addEntropy env c).seed = some d ∧ d < 256 ∧
        lookupA c'.counters id = some (wrap32 (v + d))) ∧
    (∀ c', dec_counter env c id = some (c', none) →
      ∃ d : Nat, sampleRange256 (addEntropy env c).seed = some d ∧ d < 256 ∧
        lookupA c'.counters id = some (wrap32 (v - d))) := by
  constructor
  · intro c' h
    obtain ⟨o, cnt, d, -, -, hcnt, hd, rfl⟩ := inc_counter_ok env c id c' h
    rw [hv] at hcnt
    obtain rfl : v = cnt := Option.some.inj hcnt
    exact ⟨d, hd, sampleRange256_lt _ _ hd, lookupA_insertA_self _ _ _⟩
  · intro c' h
    obtain ⟨o, cnt, d, -, -, hcnt, hd, rfl⟩ := dec_counter_ok env c id c' h
    rw [hv] at hcnt
    obtain rfl : v = cnt := Option.some.inj hcnt
    exact ⟨d, hd, sampleRange256_lt _ _ hd, lookupA_insertA_self _ _ _⟩

/-- Witness for delta_bounded_update at the synthetic inc call. -/
theorem delta_bounded_update_witness :
    ∃ d : Nat, sampleRange256 (addEntropy eW cW).seed = some d ∧ d < 256 ∧
      lookupA cIncW.counters "x" = some (wrap32 (5 + d)) :=
  (delta_bounded_update eW cW "x" 5 rfl).1 cIncW inc_eW_eq

/-- C6: create_counter always succeeds: the returned identifier is the 32
lowercase hex characters, with no separators, of the first 16 bytes drawn
from the stream of the new seed; the inserted value is the full-range i32
drawn next (stream word 4); the inserted owner is the caller. -/
theorem create_inserts_fresh_record (env : Env) (c : Contract) :
    ((create_counter env c).1).length = 32
    ∧ (∀ ch ∈ ((create_counter env c).1).data, ch ∈ hexChars)
    ∧ (create_counter env c).1 = hexOfBytes (ksBytes (create_counter env c).2.seed 16)
    ∧ lookupA (create_counter env c).2.counters (create_counter env c).1
        = some (toI32 (ksWord (create_counter env c).2.seed 4))
    ∧ lookupA (create_counter env c).2.owners (create_counter env c).1
        = some env.predecessor := by
  refine ⟨?_, ?_, rfl, ?_, ?_⟩
  · show (hexOfBytes (ksBytes (addEntropy env c).seed 16)).length = 32
    rw [hexOfBytes_length, ksBytes_length]
  · intro ch hch
    exact mem_hexOfBytes _ (ksBytes_lt _ _) ch hch
  · exact lookupA_insertA_self _ _ _
  · exact lookupA_insertA_self _ _ _

/-- Witness for create_inserts_fresh_record: the first character of the
identifier created in the synthetic state is a hex character. -/
theorem create_inserts_fresh_record_witness : '8' ∈ hexChars :=
  (create_inserts_fresh_record eW cW).2.1 '8' (by decide)

/-- C7: get_counter and get_owner on a freshly created identifier return
exactly the value drawn and stored at creation and the recorded caller. -/
theorem lookup_after_create (env : Env) (c : Contract) :
    get_counter (create_counter env c).2 (create_counter env c).1
      = Except.ok (toI32 (ksWord (create_counter env c).2.seed 4))
    ∧ get_owner (create_counter env c).2 (create_counter env c).1
      = Except.ok env.predecessor :=
  ⟨get_counter_eq_of_lookup _ _ _ (lookupA_insertA_self _ _ _),
   get_owner_eq_of_lookup _ _ _ (lookupA_insertA_self _ _ _)⟩

/-- C8: get_counter and get_owner fail with NotFound on an identifier
absent from the registry; both are pure reads of the maps, produce no new
state and touch no randomness (their types take no entropy forward). -/
theorem reads_fail_notFound (c : Contract) (id : String)
    (h1 : lookupA c.counters id = none) (h2 : lookupA c.owners id = none) :
    get_counter c id = Except.error CError.notFound ∧
    get_owner c id = Except.error CError.notFound :=
  ⟨get_counter_none c id h1, get_owner_none c id h2⟩

/-- Witness for reads_fail_notFound on the literal id "nonexistent". -/
theorem reads_fail_notFound_witness :
    get_counter cW "nonexistent" = Except.error CError.notFound ∧
    get_owner cW "nonexistent" = Except.error CError.notFound :=
  reads_fail_notFound cW "nonexistent" rfl rfl

/-- C9: the owner recorded at creation is immutable: a successful
inc_counter/dec_counter on X leaves the owners map identical and every
counter other than X unchanged, and no public operation removes a record
(create, inc and dec all preserve presence of every existing key). -/
theorem mutation_frame (env : Env) (c : Contract) (id : String) :
    (∀ c', inc_counter env c id = some (c', none) →
      c'.owners = c.owners
      ∧ (∀ y, y ≠ id → lookupA c'.counters y = lookupA c.counters y)
      ∧ (∀ y, (lookupA c.counters y).isSome = true →
          (lookupA c'.counters y).isSome = true))
    ∧ (∀ c', dec_counter env c id = some (c', none) →
      c'.owners = c.owners
      ∧ (∀ y, y ≠ id → lookupA c'.counters y = lookupA c.counters y)
      ∧ (∀ y, (lookupA c.counters y).isSome = true →
          (lookupA c'.counters y).isSome = true))
    ∧ (∀ y, (lookupA c.counters y).isSome = true →
        (lookupA (create_counter env c).2.counters y).isSome = true)
    ∧ (∀ y, (lookupA c.owners y).isSome = true →
        (lookupA (create_counter env c).2.owners y).isSome = true) := by
  refine ⟨?_, ?_, ?_, ?_⟩
  · intro c' h
    obtain ⟨o, cnt, d, -, -, -, -, rfl⟩ := inc_counter_ok env c id c' h
    refine ⟨rfl, ?_, ?_⟩
    · intro y hy
      exact lookupA_insertA_ne _ _ _ _ (Ne.symm hy)
    · intro y hsome
      exact (isSome_lookupA_insertA _ _ _ _).mpr (Or.inr hsome)
  · intro c' h
    obtain ⟨o, cnt, d, -, -, -, -, rfl⟩ := dec_counter_ok env c id c' h
    refine ⟨rfl, ?_, ?_⟩
    · intro y hy
      exact lookupA_insertA_ne _ _ _ _ (Ne.symm hy)
    · intro y hsome
      exact (isSome_lookupA_insertA _ _ _ _).mpr (Or.inr hsome)
  · intro y hsome
    exact (isSome_lookupA_insertA _ _ _ _).mpr (Or.inr hsome)
  · intro y hsome
    exact (isSome_lookupA_insertA _ _ _ _).mpr (Or.inr hsome)

/-- Witness for mutation_frame at the synthetic inc, dec and create calls. -/
theorem mutation_frame_witness :
    cIncW.owners = cW.owners
    ∧ lookupA cIncW.counters "z" = lookupA cW.counters "z"
    ∧ (lookupA cDecW.counters "z").isSome = true
    ∧ (lookupA (create_counter eW cW).2.counters "z").isSome = true
    ∧ (lookupA (create_counter eW cW).2.owners "z").isSome = true :=
  ⟨((mutation_frame eW cW "x").1 cIncW inc_eW_eq).1,
   ((mutation_frame eW cW "x").1 cIncW inc_eW_eq).2.1 "z" (by decide),
   ((mutation_frame eW cW "x").2.1 cDecW dec_eW_eq).2.2 "z" (by decide),
   (mutation_frame eW cW "x").2.2.1 "z" (by decide),
   (mutation_frame eW cW "x").2.2.2 "z" (by decide)⟩

/-- C10: in every state reachable from initialize() the counters map and
the owners map have exactly the same key set, so the NotFound check that
inc_counter/dec_counter perform through the owner lookup is equivalent to a
lookup in the counters map. -/
theorem counters_owners_same_keys (c : Contract) (h : Reachable c) :
    ∀ id, (lookupA c.counters id).isSome = true ↔
      (lookupA c.owners id).isSome = true := by
  induction h with
  | init env =>
      intro id
      simp [Contract.new, lookupA]
  | create env c hc ih =>
      intro y
      have h1 : (lookupA (create_counter env c).2.counters y).isSome = true ↔
          (y = hexOfBytes (ksBytes (addEntropy env c).seed 16) ∨
            (lookupA c.counters y).isSome = true) :=
        isSome_lookupA_insertA _ _ _ _
      have h2 : (lookupA (create_counter env c).2.owners y).isSome = true ↔
          (y = hexOfBytes (ksBytes (addEntropy env c).seed 16) ∨
            (lookupA c.owners y).isSome = true) :=
        isSome_lookupA_insertA _ _ _ _
      rw [h1, h2, ih y]
  | inc env c id0 c' hc hcall ih =>
      obtain ⟨o, cnt, d, ho, -, -, -, rfl⟩ := inc_counter_ok env c id0 c' hcall
      intro y
      show (lookupA (insertA c.counters id0 (wrap32 (cnt + d))) y).isSome = true ↔
        (lookupA c.owners y).isSome = true
      rw [isSome_lookupA_insertA]
      constructor
      · rintro (rfl | hs)
        · rw [ho]
          rfl
        · exact (ih y).mp hs
      · intro hs
        exact Or.inr ((ih y).mpr hs)
  | dec env c id0 c' hc hcall ih =>
      obtain ⟨o, cnt, d, ho, -, -, -, rfl⟩ := dec_counter_ok env c id0 c' hcall
      intro y
      show (lookupA (insertA c.counters id0 (wrap32 (cnt - d))) y).isSome = true ↔
        (lookupA c.owners y).isSome = true
      rw [isSome_lookupA_insertA]
      constructor
      · rintro (rfl | hs)
        · rw [ho]
          rfl
        · exact (ih y).mp hs
      · intro hs
        exact Or.inr ((ih y).mpr hs)

/-- Witness for counters_owners_same_keys at the freshly initialized
state. -/
theorem counters_owners_same_keys_witness :
    (lookupA (Contract.new eW).counters "q").isSome = true ↔
      (lookupA (Contract.new eW).owners "q").isSome = true :=
  counters_owners_same_keys (Contract.new eW) (Reachable.init eW) "q"

end Randomness
